import Mathlib

/-!
Verification of the process-lifecycle manager of the SeeYouAgain backend.

The repository contains three near-duplicate FastAPI backends:
  BackEnd/backend_simple.py            (the "simple" variant)
  BackEnd/1/livetalking_backend.py     (the "v1" variant)
  BackEnd/1/livetalking_backend_v2.py  (the "v2" variant)

This file gives a shallow embedding of the process registry, the
tree-termination routines, the training/publish pipeline and the status
endpoints of those backends, and settles the frozen claims about them.

OS processes are modelled as records carrying a pid, a parent pid, a
liveness flag (the result of poll) and a flag saying whether the process
ignores a graceful terminate signal (so that only a hard kill ends it).
The dictionaries of the Python code become association lists; the
filesystem directories touched by publishing become a finite map from
symbolic locations to artifact identities.
-/

namespace SeeYouAgain

/-! ## Association-list helpers (Python dict operations) -/

/-- Python dict lookup: first binding for the key, if any. -/
def getKey {κ α : Type} [DecidableEq κ] (l : List (κ × α)) (k : κ) : Option α :=
  match l with
  | [] => none
  | kv :: rest => if kv.1 = k then some kv.2 else getKey rest k

/-- Python `del d[k]`: remove every binding for the key. -/
def delKey {κ α : Type} [DecidableEq κ] (k : κ) (l : List (κ × α)) : List (κ × α) :=
  l.filter (fun kv => if kv.1 = k then false else true)

/-- Python `d[k] = v`: bind the key, displacing any previous binding. -/
def setKey {κ α : Type} [DecidableEq κ] (k : κ) (v : α) (l : List (κ × α)) : List (κ × α) :=
  (k, v) :: delKey k l

theorem getKey_delKey_self {κ α : Type} [DecidableEq κ] (k : κ) (l : List (κ × α)) :
    getKey (delKey k l) k = none := by
  induction l with
  | nil => rfl
  | cons kv rest ih =>
      unfold delKey at ih ⊢
      rw [List.filter_cons]
      by_cases h : kv.1 = k
      · rw [if_neg (by simp [h])]
        exact ih
      · rw [if_pos (by simp [h])]
        simp only [getKey, if_neg h]
        exact ih

theorem getKey_delKey_ne {κ α : Type} [DecidableEq κ] (k k' : κ) (l : List (κ × α))
    (h : k' ≠ k) : getKey (delKey k l) k' = getKey l k' := by
  induction l with
  | nil => rfl
  | cons kv rest ih =>
      unfold delKey at ih ⊢
      rw [List.filter_cons]
      by_cases hk : kv.1 = k
      · rw [if_neg (by simp [hk])]
        rw [ih]
        have hkk' : ¬ kv.1 = k' := fun hc => h (by rw [← hc, hk])
        simp [getKey, hkk']
      · rw [if_pos (by simp [hk])]
        by_cases hk' : kv.1 = k'
        · simp [getKey, hk']
        · simp only [getKey, if_neg hk']
          exact ih

theorem getKey_setKey_self {κ α : Type} [DecidableEq κ] (k : κ) (v : α) (l : List (κ × α)) :
    getKey (setKey k v l) k = some v := by
  simp [setKey, getKey]

theorem getKey_setKey_ne {κ α : Type} [DecidableEq κ] (k k' : κ) (v : α) (l : List (κ × α))
    (h : k' ≠ k) : getKey (setKey k v l) k' = getKey l k' := by
  have hk : ¬ k = k' := fun hc => h hc.symm
  simp [setKey, getKey, hk, getKey_delKey_ne k k' l h]

/-! ## OS process model

A process is observable through the psutil/subprocess interface used by the
backends: `poll` (liveness), `terminate` (graceful signal, honoured unless
the process ignores it), `kill` (always ends the process), and the parent
relation used by `psutil.Process.children(recursive=True)`. -/

structure Proc where
  pid : Nat
  parent : Nat
  alive : Bool
  /-- The process ignores the graceful terminate signal; only kill ends it. -/
  stubborn : Bool
deriving Repr, DecidableEq

/-- The process table visible to psutil. -/
abbrev World := List Proc

/-- Liveness of a pid (`poll() is None` on its handle). -/
def aliveIn (w : World) (pid : Nat) : Bool :=
  w.any (fun p => p.pid == pid && p.alive)

/-- Graceful terminate: ends the process unless it ignores the signal. -/
def terminateSig (w : World) (pid : Nat) : World :=
  w.map (fun p => if p.pid == pid && !p.stubborn then { p with alive := false } else p)

/-- Hard kill: always ends the process. -/
def killSig (w : World) (pid : Nat) : World :=
  w.map (fun p => if p.pid == pid then { p with alive := false } else p)

/-- One breadth-first level of `children(recursive=True)`: the still-existing
processes whose parent is one of the given pids, then recurse on their pids. -/
def descendantsAux (w : World) : Nat → List Nat → List Proc
  | 0, _ => []
  | fuel + 1, roots =>
      let direct := w.filter (fun p => roots.contains p.parent && p.alive)
      direct ++ descendantsAux w fuel (direct.map Proc.pid)

/-- All transitive descendants of a pid, as enumerated by
psutil `children(recursive=True)` at call time. -/
def descendants (w : World) (pid : Nat) : List Proc :=
  descendantsAux w w.length [pid]

/-- Signals sent during a termination procedure, in order. -/
inductive Sig where
  | term (pid : Nat)
  | kill (pid : Nat)
deriving Repr, DecidableEq

/-- The pid a signal is addressed to. -/
def Sig.target : Sig → Nat
  | .term p => p
  | .kill p => p

/-- Whether the (unique, in a well-formed world) process with this pid
ignores graceful termination. -/
def stubbornPid (w : World) (pid : Nat) : Bool :=
  w.any (fun p => p.pid == pid && p.stubborn)

/-- Embedding of `kill_process_tree` from livetalking_backend.py (and the
identical copy in livetalking_backend_v2.py): enumerate descendants, send
terminate to each child, wait, hard-kill the survivors, then terminate the
parent, wait, and hard-kill it if it is still alive.  Returns the final
process table together with the ordered trace of signals sent. -/
def kill_process_tree (w : World) (pid : Nat) : World × List Sig :=
  let children := descendants w pid
  let w1 := children.foldl (fun acc c => terminateSig acc c.pid) w
  let survivors := children.filter (fun c => c.stubborn)
  let w2 := survivors.foldl (fun acc c => killSig acc c.pid) w1
  let w3 := terminateSig w2 pid
  let w4 := if stubbornPid w pid then killSig w3 pid else w3
  (w4,
    children.map (fun c => Sig.term c.pid) ++ survivors.map (fun c => Sig.kill c.pid)
      ++ [Sig.term pid] ++ (if stubbornPid w pid then [Sig.kill pid] else []))

/-- Embedding of `kill_process` from backend_simple.py: terminate the single
process, wait up to five seconds, and hard-kill it if the wait fails.  No
descendant is ever enumerated or signalled. -/
def kill_process (w : World) (pid : Nat) : World × List Sig :=
  let w1 := terminateSig w pid
  if stubbornPid w pid then (killSig w1 pid, [Sig.term pid, Sig.kill pid])
  else (w1, [Sig.term pid])

/-- A well-formed process table has no duplicate pids. -/
def WF (w : World) : Prop := (w.map Proc.pid).Nodup

instance : DecidablePred WF := fun w => by
  unfold WF; infer_instance

/-! ## Facts about signalling and the process table -/

/-- Every process with this pid has exited. -/
def DeadPid (w : World) (x : Nat) : Prop := ∀ q ∈ w, q.pid = x → q.alive = false

/-- No process with this pid ignores graceful termination. -/
def MeekPid (w : World) (x : Nat) : Prop := ∀ q ∈ w, q.pid = x → q.stubborn = false

theorem aliveIn_eq_false_iff {w : World} {x : Nat} :
    aliveIn w x = false ↔ DeadPid w x := by
  constructor
  · intro h q hq hpid
    by_contra hcon
    have halive : q.alive = true := by
      cases hqa : q.alive
      · exact absurd hqa hcon
      · rfl
    have hal : aliveIn w x = true := by
      simp only [aliveIn, List.any_eq_true]
      exact ⟨q, hq, by simp [hpid, halive]⟩
    rw [h] at hal
    cases hal
  · intro h
    by_contra hcon
    have hal : aliveIn w x = true := by
      cases hx : aliveIn w x
      · exact absurd hx hcon
      · rfl
    simp only [aliveIn, List.any_eq_true] at hal
    rcases hal with ⟨q, hq, hqq⟩
    simp only [Bool.and_eq_true, beq_iff_eq] at hqq
    have hdead := h q hq hqq.1
    rw [hdead] at hqq
    cases hqq.2

theorem DeadPid_map_update {w : World} {x : Nat} {f : Proc → Proc}
    (hpid : ∀ p, (f p).pid = p.pid)
    (halive : ∀ p, (f p).alive = p.alive ∨ (f p).alive = false)
    (h : DeadPid w x) : DeadPid (w.map f) x := by
  intro q hq hq2
  rcases List.mem_map.mp hq with ⟨p, hp, rfl⟩
  rcases halive p with h1 | h1
  · rw [h1]
    exact h p hp (by rw [← hpid p]; exact hq2)
  · exact h1

theorem MeekPid_map_update {w : World} {x : Nat} {f : Proc → Proc}
    (hpid : ∀ p, (f p).pid = p.pid)
    (hstub : ∀ p, (f p).stubborn = p.stubborn)
    (h : MeekPid w x) : MeekPid (w.map f) x := by
  intro q hq hq2
  rcases List.mem_map.mp hq with ⟨p, hp, rfl⟩
  rw [hstub p]
  exact h p hp (by rw [← hpid p]; exact hq2)

theorem terminateSig_pid (y : Nat) (p : Proc) :
    ((fun p => if p.pid == y && !p.stubborn then { p with alive := false } else p) p).pid
      = p.pid := by
  by_cases hc : (p.pid == y && !p.stubborn) = true <;> simp [hc]

theorem terminateSig_stubborn (y : Nat) (p : Proc) :
    ((fun p => if p.pid == y && !p.stubborn then { p with alive := false } else p) p).stubborn
      = p.stubborn := by
  by_cases hc : (p.pid == y && !p.stubborn) = true <;> simp [hc]

theorem killSig_pid (y : Nat) (p : Proc) :
    ((fun p => if p.pid == y then { p with alive := false } else p) p).pid = p.pid := by
  by_cases hc : (p.pid == y) = true <;> simp [hc]

theorem killSig_stubborn (y : Nat) (p : Proc) :
    ((fun p => if p.pid == y then { p with alive := false } else p) p).stubborn
      = p.stubborn := by
  by_cases hc : (p.pid == y) = true <;> simp [hc]

theorem DeadPid_terminateSig {w : World} {x : Nat} (y : Nat) (h : DeadPid w x) :
    DeadPid (terminateSig w y) x :=
  DeadPid_map_update (terminateSig_pid y)
    (fun p => by by_cases hc : (p.pid == y && !p.stubborn) = true <;> simp [hc]) h

theorem DeadPid_killSig {w : World} {x : Nat} (y : Nat) (h : DeadPid w x) :
    DeadPid (killSig w y) x :=
  DeadPid_map_update (killSig_pid y)
    (fun p => by by_cases hc : (p.pid == y) = true <;> simp [hc]) h

theorem MeekPid_terminateSig {w : World} {x : Nat} (y : Nat) (h : MeekPid w x) :
    MeekPid (terminateSig w y) x :=
  MeekPid_map_update (terminateSig_pid y) (terminateSig_stubborn y) h

theorem MeekPid_killSig {w : World} {x : Nat} (y : Nat) (h : MeekPid w x) :
    MeekPid (killSig w y) x :=
  MeekPid_map_update (killSig_pid y) (killSig_stubborn y) h

theorem DeadPid_killSig_self (w : World) (x : Nat) : DeadPid (killSig w x) x := by
  intro q hq hpid
  rcases List.mem_map.mp hq with ⟨p, hp, rfl⟩
  by_cases hc : (p.pid == x) = true
  · simp [hc]
  · rw [if_neg hc] at hpid
    exact absurd (by simp [hpid]) hc

theorem DeadPid_terminateSig_self {w : World} {x : Nat} (h : MeekPid w x) :
    DeadPid (terminateSig w x) x := by
  intro q hq hpid
  rcases List.mem_map.mp hq with ⟨p, hp, rfl⟩
  by_cases hc : (p.pid == x && !p.stubborn) = true
  · simp [hc]
  · rw [if_neg hc] at hpid
    have hstub := h p hp hpid
    exact absurd (by simp [hpid, hstub]) hc

theorem DeadPid_foldl_term {x : Nat} (l : List Proc) :
    ∀ w : World, DeadPid w x →
      DeadPid (l.foldl (fun acc c => terminateSig acc c.pid) w) x := by
  induction l with
  | nil => intro w h; exact h
  | cons c rest ih => intro w h; exact ih _ (DeadPid_terminateSig c.pid h)

theorem DeadPid_foldl_kill {x : Nat} (l : List Proc) :
    ∀ w : World, DeadPid w x →
      DeadPid (l.foldl (fun acc c => killSig acc c.pid) w) x := by
  induction l with
  | nil => intro w h; exact h
  | cons c rest ih => intro w h; exact ih _ (DeadPid_killSig c.pid h)

theorem MeekPid_foldl_term {x : Nat} (l : List Proc) :
    ∀ w : World, MeekPid w x →
      MeekPid (l.foldl (fun acc c => terminateSig acc c.pid) w) x := by
  induction l with
  | nil => intro w h; exact h
  | cons c rest ih => intro w h; exact ih _ (MeekPid_terminateSig c.pid h)

theorem MeekPid_foldl_kill {x : Nat} (l : List Proc) :
    ∀ w : World, MeekPid w x →
      MeekPid (l.foldl (fun acc c => killSig acc c.pid) w) x := by
  induction l with
  | nil => intro w h; exact h
  | cons c rest ih => intro w h; exact ih _ (MeekPid_killSig c.pid h)

theorem DeadPid_foldl_kill_mem {x : Nat} (l : List Proc) :
    ∀ w : World, x ∈ l.map Proc.pid →
      DeadPid (l.foldl (fun acc c => killSig acc c.pid) w) x := by
  induction l with
  | nil => intro w h; cases h
  | cons c rest ih =>
      intro w hx
      rcases List.mem_cons.mp hx with h | h
      · subst h
        exact DeadPid_foldl_kill rest _ (DeadPid_killSig_self w c.pid)
      · exact ih _ h

theorem DeadPid_foldl_term_mem {x : Nat} (l : List Proc) :
    ∀ w : World, MeekPid w x → x ∈ l.map Proc.pid →
      DeadPid (l.foldl (fun acc c => terminateSig acc c.pid) w) x := by
  induction l with
  | nil => intro w _ h; cases h
  | cons c rest ih =>
      intro w hm hx
      rcases List.mem_cons.mp hx with h | h
      · subst h
        exact DeadPid_foldl_term rest _ (DeadPid_terminateSig_self hm)
      · exact ih _ (MeekPid_terminateSig c.pid hm) h

theorem descendantsAux_subset (w : World) :
    ∀ (fuel : Nat) (roots : List Nat) (d : Proc), d ∈ descendantsAux w fuel roots → d ∈ w := by
  intro fuel
  induction fuel with
  | zero => intro roots d h; cases h
  | succ fuel ih =>
      intro roots d h
      simp only [descendantsAux] at h
      rcases List.mem_append.mp h with h | h
      · exact List.mem_of_mem_filter h
      · exact ih _ _ h

theorem descendants_subset {w : World} {pid : Nat} {d : Proc}
    (h : d ∈ descendants w pid) : d ∈ w :=
  descendantsAux_subset w w.length [pid] d h

/-- In a well-formed world, a pid determines the process. -/
theorem WF.pid_inj {w : World} (hwf : WF w) {p q : Proc}
    (hp : p ∈ w) (hq : q ∈ w) (h : p.pid = q.pid) : p = q :=
  List.inj_on_of_nodup_map hwf hp hq h

theorem stubbornPid_eq_false_iff {w : World} {x : Nat} :
    stubbornPid w x = false ↔ MeekPid w x := by
  constructor
  · intro h q hq hpid
    by_contra hcon
    have hstub : q.stubborn = true := by
      cases hqa : q.stubborn
      · exact absurd hqa hcon
      · rfl
    have hs : stubbornPid w x = true := by
      simp only [stubbornPid, List.any_eq_true]
      exact ⟨q, hq, by simp [hpid, hstub]⟩
    rw [h] at hs
    cases hs
  · intro h
    by_contra hcon
    have hs : stubbornPid w x = true := by
      cases hx : stubbornPid w x
      · exact absurd hx hcon
      · rfl
    simp only [stubbornPid, List.any_eq_true] at hs
    rcases hs with ⟨q, hq, hqq⟩
    simp only [Bool.and_eq_true, beq_iff_eq] at hqq
    have hmeek := h q hq hqq.1
    rw [hmeek] at hqq
    cases hqq.2

theorem descendants_dead_after_phase1 {w : World} {pid : Nat} (hwf : WF w) :
    ∀ d ∈ descendants w pid,
      DeadPid (((descendants w pid).filter (fun c => c.stubborn)).foldl
        (fun acc c => killSig acc c.pid)
        ((descendants w pid).foldl (fun acc c => terminateSig acc c.pid) w)) d.pid := by
  intro d hd
  by_cases hstub : d.stubborn = true
  · apply DeadPid_foldl_kill_mem
    exact List.mem_map.mpr ⟨d, List.mem_filter.mpr ⟨hd, by simp [hstub]⟩, rfl⟩
  · have hmeek : MeekPid w d.pid := by
      intro q hq hqpid
      have hqd : q = d := hwf.pid_inj hq (descendants_subset hd) hqpid
      rw [hqd]
      simpa using hstub
    apply DeadPid_foldl_kill
    exact DeadPid_foldl_term_mem _ _ hmeek (List.mem_map.mpr ⟨d, hd, rfl⟩)

theorem kill_process_tree_descendant_dead {w : World} {pid : Nat} (hwf : WF w) :
    ∀ d ∈ descendants w pid, aliveIn (kill_process_tree w pid).1 d.pid = false := by
  intro d hd
  rw [aliveIn_eq_false_iff]
  by_cases hp : stubbornPid w pid = true
  · simp only [kill_process_tree, hp, if_true]
    exact DeadPid_killSig pid (DeadPid_terminateSig pid
      (descendants_dead_after_phase1 hwf d hd))
  · simp only [kill_process_tree, hp, Bool.false_eq_true, if_false]
    exact DeadPid_terminateSig pid (descendants_dead_after_phase1 hwf d hd)

theorem kill_process_tree_parent_dead (w : World) (pid : Nat) :
    aliveIn (kill_process_tree w pid).1 pid = false := by
  rw [aliveIn_eq_false_iff]
  by_cases hp : stubbornPid w pid = true
  · simp only [kill_process_tree, hp, if_true]
    exact DeadPid_killSig_self _ _
  · have hmeek : MeekPid w pid :=
      stubbornPid_eq_false_iff.mp (Bool.not_eq_true _ ▸ hp)
    simp only [kill_process_tree, hp, Bool.false_eq_true, if_false]
    apply DeadPid_terminateSig_self
    exact MeekPid_foldl_kill _ _ (MeekPid_foldl_term _ _ hmeek)

theorem kill_process_parent_dead (w : World) (pid : Nat) :
    aliveIn (kill_process w pid).1 pid = false := by
  rw [aliveIn_eq_false_iff]
  by_cases hp : stubbornPid w pid = true
  · simp only [kill_process, hp, if_true]
    exact DeadPid_killSig_self _ _
  · have hmeek : MeekPid w pid :=
      stubbornPid_eq_false_iff.mp (Bool.not_eq_true _ ▸ hp)
    simp only [kill_process, hp, Bool.false_eq_true, if_false]
    exact DeadPid_terminateSig_self hmeek

/-- C1 (amended): in the v1/v2 backends, kill_process_tree first enumerates all
transitive descendants of the job's process, sends graceful terminate to every
descendant before any signal reaches the parent, force-kills the descendants
that ignored it, and only then terminates (and if needed force-kills) the
parent, after which no enumerated descendant and not the parent is alive.
backend_simple's kill_process, by contrast, signals only the parent pid
(terminate, then kill if the wait fails), which it does leave dead. -/
theorem C1_stop_tree_termination (w : World) (pid : Nat) (hwf : WF w) :
    (∃ pre post,
        (kill_process_tree w pid).2 = pre ++ Sig.term pid :: post ∧
        (∀ d ∈ descendants w pid, Sig.term d.pid ∈ pre) ∧
        (∀ s ∈ pre, s.target ∈ (descendants w pid).map Proc.pid)) ∧
    (∀ d ∈ descendants w pid, aliveIn (kill_process_tree w pid).1 d.pid = false) ∧
    aliveIn (kill_process_tree w pid).1 pid = false ∧
    (∀ s ∈ (kill_process w pid).2, s.target = pid) ∧
    aliveIn (kill_process w pid).1 pid = false := by
  refine ⟨?_, ?_, ?_, ?_, ?_⟩
  · refine ⟨(descendants w pid).map (fun c => Sig.term c.pid)
        ++ ((descendants w pid).filter (fun c => c.stubborn)).map (fun c => Sig.kill c.pid),
      (if stubbornPid w pid then [Sig.kill pid] else []), ?_, ?_, ?_⟩
    · simp [kill_process_tree, List.append_assoc]
    · intro d hd
      exact List.mem_append_left _ (List.mem_map.mpr ⟨d, hd, rfl⟩)
    · intro s hs
      rcases List.mem_append.mp hs with hs | hs
      · rcases List.mem_map.mp hs with ⟨c, hc, rfl⟩
        exact List.mem_map.mpr ⟨c, hc, rfl⟩
      · rcases List.mem_map.mp hs with ⟨c, hc, rfl⟩
        exact List.mem_map.mpr ⟨c, List.mem_of_mem_filter hc, rfl⟩
  · exact kill_process_tree_descendant_dead hwf
  · exact kill_process_tree_parent_dead w pid
  · intro s hs
    by_cases hp : stubbornPid w pid = true
    · simp only [kill_process, hp, if_true, List.mem_cons, List.not_mem_nil,
        or_false] at hs
      rcases hs with hs | hs <;> (rw [hs]; rfl)
    · simp only [kill_process, hp, Bool.false_eq_true, if_false, List.mem_cons,
        List.not_mem_nil, or_false] at hs
      rw [hs]
      rfl
  · exact kill_process_parent_dead w pid

/-! ## The backend_simple.py registry and endpoints -/

/-- The global state of backend_simple.py that the supervisor endpoints touch:
the process table, the running_processes dict (name to pid of the owned
Popen handle), the training_status dict, the listing of the avatars
directory, and a counter supplying fresh pids for spawns. -/
structure SimpleState where
  world : World
  running : List (String × Nat)
  trainingStatus : List (String × String)
  avatarsDir : List String
  nextPid : Nat
deriving Repr, DecidableEq

/-- Outcome of a control endpoint: a success payload or a raised
HTTPException with its status code. -/
inductive ApiResult where
  | ok (status : String) (pid : Nat)
  | httpError (code : Nat)
deriving Repr, DecidableEq

/-- The spawn half of POST /start in backend_simple.py: launch the process,
record it in running_processes, sleep three seconds, and re-poll.  The
`survives` parameter is the environment's choice of whether the spawned
process is still alive after the grace interval; if it is not, the registry
entry is deleted again and HTTP 500 is raised. -/
def spawnServing (st : SimpleState) (avatarId : String) (survives : Bool) :
    ApiResult × SimpleState :=
  let pid := st.nextPid
  let proc : Proc := { pid := pid, parent := 0, alive := survives, stubborn := false }
  let st1 : SimpleState :=
    { st with
      world := st.world ++ [proc]
      running := setKey avatarId pid st.running
      nextPid := pid + 1 }
  if survives then (.ok "running" pid, st1)
  else (.httpError 500, { st1 with running := delKey avatarId st1.running })

/-- Embedding of POST /start in backend_simple.py: 404 when the avatar is not
on disk; HTTP 400 when the registered process still polls alive; otherwise
spawn and run the startup grace check. -/
def start_avatar (st : SimpleState) (avatarId : String) (survives : Bool) :
    ApiResult × SimpleState :=
  if st.avatarsDir.contains avatarId then
    match getKey st.running avatarId with
    | some pid =>
        if aliveIn st.world pid then (.httpError 400, st)
        else spawnServing st avatarId survives
    | none => spawnServing st avatarId survives
  else (.httpError 404, st)

/-- Embedding of POST /stop/{avatar_id} in backend_simple.py: no registry
entry reports not_running; a registered process is kill_process-ed only when
it still polls alive, and the entry is deleted either way.  The third
component is the trace of signals sent. -/
def stop_avatar (st : SimpleState) (avatarId : String) :
    String × SimpleState × List Sig :=
  match getKey st.running avatarId with
  | none => ("not_running", st, [])
  | some pid =>
      if aliveIn st.world pid then
        let res := kill_process st.world pid
        ("stopped", { st with world := res.1, running := delKey avatarId st.running }, res.2)
      else
        ("stopped", { st with running := delKey avatarId st.running }, [])

/-- Python str.startswith, over the underlying character list. -/
def pyStartsWith (s pat : String) : Bool := pat.data.isPrefixOf s.data

/-- Fuel-driven core of Python str.replace over character lists: replace
every non-overlapping occurrence of pat, left to right. -/
def pyReplaceAux (pat rep : List Char) : Nat → List Char → List Char
  | 0, s => s
  | _ + 1, [] => []
  | fuel + 1, c :: rest =>
      if pat.isPrefixOf (c :: rest) && !pat.isEmpty then
        rep ++ pyReplaceAux pat rep fuel ((c :: rest).drop pat.length)
      else c :: pyReplaceAux pat rep fuel rest

/-- Python str.replace (all occurrences). -/
def pyReplace (s pat rep : String) : String :=
  ⟨pyReplaceAux pat.data rep.data s.data.length s.data⟩

/-- One entry of the GET /avatars response of backend_simple.py. -/
structure AvatarInfo where
  id : String
  name : String
  hasAudio : Bool
  isRunning : Bool
deriving Repr, DecidableEq

/-- Embedding of scan_avatars in backend_simple.py: every directory entry with
the wav2lip256 naming convention is reported, and the is_running field is
computed from running_processes membership alone, with no liveness
re-check. -/
def scan_avatars (avatarsDir wavFiles : List String)
    (running : List (String × Nat)) : List AvatarInfo :=
  (avatarsDir.filter (fun item => pyStartsWith item "wav2lip256_")).map (fun item =>
    { id := item
      name := pyReplace item "wav2lip256_" ""
      hasAudio := wavFiles.contains (item ++ ".wav")
      isRunning := (getKey running item).isSome })

/-- Embedding of the id normalization at the top of POST /train in
backend_simple.py (identical in train_model of livetalking_backend_v2.py). -/
def normalizeAvatarId (avatarId : String) : String :=
  if pyStartsWith avatarId "wav2lip256_" then avatarId
  else "wav2lip256_" ++ avatarId

/-- The training command line built by run_training in backend_simple.py. -/
def trainingCmd (videoPath avatarId : String) : List String :=
  ["python", "genavatar.py", "--video_path", videoPath, "--img_size", "256",
   "--avatar_id", avatarId]

/-- Embedding of POST /train in backend_simple.py: normalize the id, record
the training status under the normalized id, and schedule run_training on it.
Returns the updated training-status dict, the avatar_id of the response, and
the command line the background task will spawn. -/
def train_avatar (ts : List (String × String)) (avatarId videoPath : String) :
    List (String × String) × String × List String :=
  let full := normalizeAvatarId avatarId
  (setKey full "training" ts, full, trainingCmd videoPath full)

/-- C1 (witness): the tree-termination theorem applied to a concrete world, a
live parent pid 1 with one live stubborn child pid 2. -/
theorem C1_stop_tree_termination_witness :
    WF ([⟨1, 0, true, false⟩, ⟨2, 1, true, true⟩] : World) ∧
    aliveIn (kill_process_tree [⟨1, 0, true, false⟩, ⟨2, 1, true, true⟩] 1).1 1 = false :=
  ⟨by decide, (C1_stop_tree_termination _ 1 (by decide)).2.2.1⟩

/-- C1 (counterexample): in backend_simple.py, stopping a job whose live
process has a live child sends no signal at all to the child: the signal
trace is exactly one terminate of the parent, and the child is still alive
afterwards, refuting the claim that every StopJob signals all transitive
descendants before the parent. -/
theorem C1_counterexample :
    descendants ([⟨1, 0, true, false⟩, ⟨2, 1, true, false⟩] : World) 1
      = [⟨2, 1, true, false⟩] ∧
    (stop_avatar ⟨[⟨1, 0, true, false⟩, ⟨2, 1, true, false⟩],
        [("avatarA", 1)], [], ["avatarA"], 3⟩ "avatarA").1 = "stopped" ∧
    (stop_avatar ⟨[⟨1, 0, true, false⟩, ⟨2, 1, true, false⟩],
        [("avatarA", 1)], [], ["avatarA"], 3⟩ "avatarA").2.2 = [Sig.term 1] ∧
    aliveIn (stop_avatar ⟨[⟨1, 0, true, false⟩, ⟨2, 1, true, false⟩],
        [("avatarA", 1)], [], ["avatarA"], 3⟩ "avatarA").2.1.world 2 = true := by
  decide

/-- C3 (amended): a second StartJob for a name whose registered process is
still alive is rejected with HTTP 400, spawns nothing, and leaves the state
of the first start untouched, so exactly one process was spawned for the name
and it is alive and registered. -/
theorem C3_duplicate_start_rejected (st : SimpleState) (name : String) (b : Bool)
    (hex : name ∈ st.avatarsDir)
    (hfresh : getKey st.running name = none) :
    (start_avatar st name true).1 = .ok "running" st.nextPid ∧
    (start_avatar st name true).2.world
      = st.world ++ [⟨st.nextPid, 0, true, false⟩] ∧
    getKey (start_avatar st name true).2.running name = some st.nextPid ∧
    aliveIn (start_avatar st name true).2.world st.nextPid = true ∧
    (start_avatar (start_avatar st name true).2 name b).1 = .httpError 400 ∧
    (start_avatar (start_avatar st name true).2 name b).2
      = (start_avatar st name true).2 := by
  have h1 : start_avatar st name true =
      (.ok "running" st.nextPid,
        { st with
          world := st.world ++ [⟨st.nextPid, 0, true, false⟩]
          running := setKey name st.nextPid st.running
          nextPid := st.nextPid + 1 }) := by
    simp [start_avatar, hex, hfresh, spawnServing]
  have halive : aliveIn (st.world ++ [⟨st.nextPid, 0, true, false⟩]) st.nextPid = true := by
    simp [aliveIn]
  have h2 : start_avatar (start_avatar st name true).2 name b
      = (.httpError 400, (start_avatar st name true).2) := by
    rw [h1]
    simp [start_avatar, hex, getKey_setKey_self, halive]
  rw [h1] at h2 ⊢
  exact ⟨rfl, rfl, getKey_setKey_self name st.nextPid st.running, halive,
    by rw [h2], by rw [h2]⟩

/-- C3 (witness): the duplicate-start theorem at a concrete fresh state. -/
theorem C3_duplicate_start_rejected_witness :
    (start_avatar ⟨[], [], [], ["wav2lip256_a"], 5⟩ "wav2lip256_a" true).1
      = .ok "running" 5 ∧
    (start_avatar (start_avatar ⟨[], [], [], ["wav2lip256_a"], 5⟩
        "wav2lip256_a" true).2 "wav2lip256_a" true).1 = .httpError 400 :=
  ⟨(C3_duplicate_start_rejected ⟨[], [], [], ["wav2lip256_a"], 5⟩
      "wav2lip256_a" true (by decide) (by decide)).1,
   (C3_duplicate_start_rejected ⟨[], [], [], ["wav2lip256_a"], 5⟩
      "wav2lip256_a" true (by decide) (by decide)).2.2.2.2.1⟩

/-- C3 (counterexample): the duplicate start is rejected with HTTP status 400,
not with the HTTP conflict status 409 the claim names. -/
theorem C3_counterexample :
    (start_avatar (start_avatar ⟨[], [], [], ["wav2lip256_a"], 5⟩
        "wav2lip256_a" true).2 "wav2lip256_a" true).1 = .httpError 400 ∧
    (start_avatar (start_avatar ⟨[], [], [], ["wav2lip256_a"], 5⟩
        "wav2lip256_a" true).2 "wav2lip256_a" true).1 ≠ .httpError 409 := by
  decide

theorem stop_not_running {st : SimpleState} {name : String}
    (h : getKey st.running name = none) :
    stop_avatar st name = ("not_running", st, []) := by
  simp [stop_avatar, h]

/-- C7: stopping a name with no registry entry reports not_running and changes
nothing, and a second consecutive StopJob always reports not_running and
leaves the state of the first stop exactly as it was. -/
theorem C7_stop_idempotent (st : SimpleState) (name : String) :
    (getKey st.running name = none → stop_avatar st name = ("not_running", st, [])) ∧
    stop_avatar (stop_avatar st name).2.1 name
      = ("not_running", (stop_avatar st name).2.1, []) := by
  constructor
  · exact fun h => stop_not_running h
  · have h : getKey (stop_avatar st name).2.1.running name = none := by
      cases hk : getKey st.running name with
      | none => simp [stop_avatar, hk]
      | some pid =>
          cases ha : aliveIn st.world pid with
          | false => simp [stop_avatar, hk, ha, getKey_delKey_self]
          | true => simp [stop_avatar, hk, ha, getKey_delKey_self]
    exact stop_not_running h

/-- C7 (witness): both parts of the idempotence theorem at a fresh registry. -/
theorem C7_stop_idempotent_witness :
    stop_avatar (⟨[], [], [], [], 0⟩ : SimpleState) "a"
      = ("not_running", ⟨[], [], [], [], 0⟩, []) ∧
    stop_avatar (stop_avatar (⟨[], [], [], [], 0⟩ : SimpleState) "a").2.1 "a"
      = ("not_running", (stop_avatar (⟨[], [], [], [], 0⟩ : SimpleState) "a").2.1, []) :=
  ⟨(C7_stop_idempotent ⟨[], [], [], [], 0⟩ "a").1 rfl,
   (C7_stop_idempotent ⟨[], [], [], [], 0⟩ "a").2⟩

/-- C10: stopping a name whose registry entry points at an already exited
process skips the kill (no signal is sent and the process table is
untouched), deletes the entry, returns "stopped", and a subsequent start for
the name is then accepted rather than rejected as already running. -/
theorem C10_stop_dead_entry (st : SimpleState) (name : String) (pid : Nat)
    (hreg : getKey st.running name = some pid)
    (hdead : aliveIn st.world pid = false) :
    stop_avatar st name
      = ("stopped", { st with running := delKey name st.running }, []) ∧
    (name ∈ st.avatarsDir →
      (start_avatar (stop_avatar st name).2.1 name true).1
        = .ok "running" st.nextPid) := by
  have h1 : stop_avatar st name
      = ("stopped", { st with running := delKey name st.running }, []) := by
    simp [stop_avatar, hreg, hdead]
  refine ⟨h1, ?_⟩
  intro hex
  rw [h1]
  simp [start_avatar, hex, getKey_delKey_self, spawnServing]

/-- C10 (witness): the dead-entry stop theorem at a concrete registry holding
an exited process. -/
theorem C10_stop_dead_entry_witness :
    stop_avatar ⟨[⟨7, 0, false, false⟩], [("wav2lip256_a", 7)], [],
        ["wav2lip256_a"], 8⟩ "wav2lip256_a"
      = ("stopped", { world := [⟨7, 0, false, false⟩]
                      running := delKey "wav2lip256_a" [("wav2lip256_a", 7)]
                      trainingStatus := []
                      avatarsDir := ["wav2lip256_a"]
                      nextPid := 8 }, []) ∧
    (start_avatar (stop_avatar ⟨[⟨7, 0, false, false⟩], [("wav2lip256_a", 7)], [],
        ["wav2lip256_a"], 8⟩ "wav2lip256_a").2.1 "wav2lip256_a" true).1
      = .ok "running" 8 :=
  ⟨(C10_stop_dead_entry ⟨[⟨7, 0, false, false⟩], [("wav2lip256_a", 7)], [],
      ["wav2lip256_a"], 8⟩ "wav2lip256_a" 7 (by decide) (by decide)).1,
   (C10_stop_dead_entry ⟨[⟨7, 0, false, false⟩], [("wav2lip256_a", 7)], [],
      ["wav2lip256_a"], 8⟩ "wav2lip256_a" 7 (by decide) (by decide)).2 (by decide)⟩

/-! ## Filesystem model for artifact publishing -/

/-- The directory paths the publish step touches, as symbolic locations:
`staging id` is RESULTS_DIR/<id> (the wav2lip training output),
`published id` is AVATARS_DIR/<id> (where serving jobs read), and
`backup id` stands for the timestamped AVATARS_DIR/<id>_backup_<ts> path
used by livetalking_backend_v2.py. -/
inductive Loc where
  | staging (id : String)
  | published (id : String)
  | backup (id : String)
deriving Repr, DecidableEq

/-- A filesystem: which artifact directory (identified by an abstract content
id) sits at which location. -/
abbrev Fs := List (Loc × Nat)

/-- The primitive directory operations used by publishing:
`rename` is shutil.move of a whole directory, `delete` is shutil.rmtree. -/
inductive FsOp where
  | rename (src dst : Loc)
  | delete (p : Loc)
deriving Repr, DecidableEq

def applyOp (fs : Fs) (op : FsOp) : Fs :=
  match op with
  | .rename src dst =>
      match getKey fs src with
      | none => fs
      | some v => setKey dst v (delKey src fs)
  | .delete p => delKey p fs

def applyOps (fs : Fs) (ops : List FsOp) : Fs := ops.foldl applyOp fs

/-- The sequence of directory operations performed by move_trained_avatar in
livetalking_backend_v2.py when the staged artifact exists: a pre-existing
published artifact is first renamed aside to the backup path, then the
staged artifact is moved into place. -/
def v2_publish_ops (fs : Fs) (avatarId : String) : List FsOp :=
  if (getKey fs (Loc.published avatarId)).isSome then
    [.rename (Loc.published avatarId) (Loc.backup avatarId),
     .rename (Loc.staging avatarId) (Loc.published avatarId)]
  else
    [.rename (Loc.staging avatarId) (Loc.published avatarId)]

/-- Embedding of move_trained_avatar in livetalking_backend_v2.py: with no
staged artifact it reports failure; a filesystem exception inside the try
block (the `moveFails` environment choice) is swallowed and also reports
failure; otherwise the publish operations run and it reports success. -/
def move_trained_avatar (fs : Fs) (avatarId : String) (moveFails : Bool) :
    Fs × Bool :=
  if (getKey fs (Loc.staging avatarId)).isSome then
    if moveFails then (fs, false)
    else (applyOps fs (v2_publish_ops fs avatarId), true)
  else (fs, false)

/-- The sequence of directory operations of the publish step of run_training
in backend_simple.py when the staged artifact exists: a pre-existing
published artifact is deleted with shutil.rmtree, then the staged artifact
is moved into place. -/
def simple_publish_ops (fs : Fs) (avatarId : String) : List FsOp :=
  if (getKey fs (Loc.published avatarId)).isSome then
    [.delete (Loc.published avatarId),
     .rename (Loc.staging avatarId) (Loc.published avatarId)]
  else
    [.rename (Loc.staging avatarId) (Loc.published avatarId)]

/-- An artifact content id is present somewhere in the filesystem. -/
def containsVal (fs : Fs) (v : Nat) : Bool := fs.any (fun kv => kv.2 == v)

theorem containsVal_of_getKey {fs : Fs} {l : Loc} {v : Nat}
    (h : getKey fs l = some v) : containsVal fs v = true := by
  induction fs with
  | nil => cases h
  | cons kv rest ih =>
      by_cases hk : kv.1 = l
      · simp only [getKey, if_pos hk, Option.some.injEq] at h
        simp [containsVal, List.any_cons, h]
      · simp only [getKey, if_neg hk] at h
        have := ih h
        simp only [containsVal, List.any_cons]
        simp only [containsVal] at this
        rw [this]
        simp

/-- C2 (amended): the publish of livetalking_backend_v2.py displaces a prior
published artifact by renaming it aside, performs no delete, and after every
prefix of its operation sequence (every interruption point) the prior
artifact is still present at some location; backend_simple.py instead
deletes the prior artifact before the move. -/
theorem C2_v2_publish_preserves_prior (fs : Fs) (id : String) (vOld : Nat)
    (hold : getKey fs (Loc.published id) = some vOld) :
    (∀ p, FsOp.delete p ∉ v2_publish_ops fs id) ∧
    (∀ n, containsVal (applyOps fs ((v2_publish_ops fs id).take n)) vOld = true) := by
  have hops : v2_publish_ops fs id
      = [.rename (Loc.published id) (Loc.backup id),
         .rename (Loc.staging id) (Loc.published id)] := by
    simp [v2_publish_ops, hold]
  constructor
  · intro p
    rw [hops]
    simp
  · intro n
    rw [hops]
    have hne1 : Loc.staging id ≠ Loc.backup id := fun h => Loc.noConfusion h
    have hne2 : Loc.staging id ≠ Loc.published id := fun h => Loc.noConfusion h
    have hne3 : Loc.backup id ≠ Loc.published id := fun h => Loc.noConfusion h
    have hfs1 : applyOp fs (.rename (Loc.published id) (Loc.backup id))
        = setKey (Loc.backup id) vOld (delKey (Loc.published id) fs) := by
      simp [applyOp, hold]
    have hback : getKey (setKey (Loc.backup id) vOld
        (delKey (Loc.published id) fs)) (Loc.backup id) = some vOld :=
      getKey_setKey_self _ _ _
    have htake1 : ∀ (x y : FsOp), List.take 1 [x, y] = [x] := fun x y => rfl
    match n with
    | 0 =>
        simpa [applyOps] using containsVal_of_getKey hold
    | 1 =>
        rw [htake1]
        simp only [applyOps, List.foldl, hfs1]
        exact containsVal_of_getKey hback
    | (k + 2) =>
        rw [List.take_of_length_le (by simp)]
        simp only [applyOps, List.foldl, hfs1]
        cases hstage : getKey (setKey (Loc.backup id) vOld
            (delKey (Loc.published id) fs)) (Loc.staging id) with
        | none =>
            simp only [applyOp, hstage]
            exact containsVal_of_getKey hback
        | some v =>
            simp only [applyOp, hstage]
            have hb2 : getKey (setKey (Loc.published id) v
                (delKey (Loc.staging id) (setKey (Loc.backup id) vOld
                  (delKey (Loc.published id) fs)))) (Loc.backup id) = some vOld := by
              rw [getKey_setKey_ne _ _ _ _ hne3,
                getKey_delKey_ne _ _ _ (Ne.symm hne1)]
              exact hback
            exact containsVal_of_getKey hb2

/-- C2 (witness): the publish-preservation theorem at a concrete filesystem,
interrupted after the first operation. -/
theorem C2_v2_publish_preserves_prior_witness :
    containsVal (applyOps [(Loc.published "a", 1), (Loc.staging "a", 2)]
        ((v2_publish_ops [(Loc.published "a", 1), (Loc.staging "a", 2)] "a").take 1))
      1 = true :=
  (C2_v2_publish_preserves_prior
    [(Loc.published "a", 1), (Loc.staging "a", 2)] "a" 1 (by decide)).2 1

/-- C2 (counterexample): the publish of backend_simple.py deletes the prior
published artifact before moving the new one into place, so interrupting it
after the first operation leaves the prior artifact (content 1) nowhere on
the filesystem. -/
theorem C2_counterexample :
    simple_publish_ops [(Loc.published "a", 1), (Loc.staging "a", 2)] "a"
      = [FsOp.delete (Loc.published "a"),
         FsOp.rename (Loc.staging "a") (Loc.published "a")] ∧
    containsVal (applyOps [(Loc.published "a", 1), (Loc.staging "a", 2)]
        ((simple_publish_ops [(Loc.published "a", 1), (Loc.staging "a", 2)] "a").take 1))
      1 = false := by
  decide

/-! ## Training runs and the livetalking_backend (v1/v2) registries -/

/-- The part of a session dict that the lifecycle endpoints read and write:
its status string, the recorded pid if any, and the recorded error. -/
structure SessionRec where
  status : String
  pid : Option Nat
  error : Option String
deriving Repr, DecidableEq

/-- Per-job environment choices for an awaited training run: whether the wait
times out, the exit code otherwise, and whether the artifact relocation
raises a filesystem error. -/
structure TrainEnv where
  timesOut : Bool
  exitCode : Int
  moveFails : Bool
deriving Repr, DecidableEq

/-- Mutate the session record under a key, as Python
sessions[k][field] = v does (no effect when the key is absent). -/
def updateSession (sessions : List (String × SessionRec)) (k : String)
    (f : SessionRec → SessionRec) : List (String × SessionRec) :=
  match getKey sessions k with
  | none => sessions
  | some s => setKey k (f s) sessions

/-- Embedding of run_training in backend_simple.py from the subprocess.run
call onwards.  subprocess.run with a timeout kills its direct child on
expiry and raises, and the generic exception handler records the bare
"error" status; no descendant of the trainer is signalled and no distinct
timeout reason is stored.  On exit 0 with a staged artifact the publish
operations of simple_publish_ops run (a filesystem error during them is
caught by the same generic handler); a missing staged artifact or a nonzero
exit also record "error", and exit 0 with a successful publish records
"completed". -/
def simple_run_training (world : World) (ts : List (String × String)) (fs : Fs)
    (avatarId : String) (pid : Nat) (env : TrainEnv) :
    World × List (String × String) × Fs :=
  let world' := killSig world pid
  if env.timesOut then (world', setKey avatarId "error" ts, fs)
  else if env.exitCode = 0 then
    if (getKey fs (Loc.staging avatarId)).isSome then
      if env.moveFails then (world', setKey avatarId "error" ts, fs)
      else (world', setKey avatarId "completed" ts,
        applyOps fs (simple_publish_ops fs avatarId))
    else (world', setKey avatarId "error" ts, fs)
  else (world', setKey avatarId "error" ts, fs)

/-- Embedding of run_training in livetalking_backend_v2.py from the
process.wait onwards: on TimeoutExpired the session records status "error"
with message 训练超时 and kill_process_tree is applied to the trainer; on
exit 0 move_trained_avatar runs, a publish failure forcing status "error"
with message 无法移动训练结果 and success giving status "ready"; a nonzero
exit records the return code; the training_processes entry is removed in the
finally block. -/
def v2_run_training_await (world : World) (sessions : List (String × SessionRec))
    (training : List (String × Nat)) (fs : Fs) (avatarId : String) (pid : Nat)
    (env : TrainEnv) :
    World × List (String × SessionRec) × List (String × Nat) × Fs :=
  if env.timesOut then
    ((kill_process_tree world pid).1,
      updateSession sessions avatarId
        (fun s => { s with status := "error", error := some "训练超时" }),
      delKey avatarId training, fs)
  else if env.exitCode = 0 then
    let res := move_trained_avatar fs avatarId env.moveFails
    if res.2 then
      (killSig world pid,
        updateSession sessions avatarId (fun s => { s with status := "ready" }),
        delKey avatarId training, res.1)
    else
      (killSig world pid,
        updateSession sessions avatarId
          (fun s => { s with status := "error", error := some "无法移动训练结果" }),
        delKey avatarId training, res.1)
  else
    (killSig world pid,
      updateSession sessions avatarId
        (fun s => { s with
          status := "error"
          error := some ("训练失败，返回码: " ++ toString env.exitCode) }),
      delKey avatarId training, fs)

/-- The global state of livetalking_backend.py: the process table, the
sessions dict, running_processes, training_processes, and a counter
supplying fresh pids. -/
structure V1State where
  world : World
  sessions : List (String × SessionRec)
  running : List (String × Nat)
  training : List (String × Nat)
  nextPid : Nat
deriving Repr, DecidableEq

/-- Embedding of POST /start in livetalking_backend.py: 404 when the session
is unknown, 400 when it is not ready or when the session id is already in
running_processes (a membership test, no liveness poll), otherwise spawn,
record the pid both in running_processes and in the session, sleep two
seconds and re-poll.  An already exited process is deregistered from
running_processes, the session status becomes "error", and HTTP 500 is
raised; the pid recorded in the session is not removed on that path. -/
def v1_start_avatar (st : V1State) (sid : String) (survives : Bool) :
    ApiResult × V1State :=
  match getKey st.sessions sid with
  | none => (.httpError 404, st)
  | some sess =>
      if sess.status ≠ "ready" then (.httpError 400, st)
      else if (getKey st.running sid).isSome then (.httpError 400, st)
      else
        let pid := st.nextPid
        let proc : Proc := { pid := pid, parent := 0, alive := survives, stubborn := false }
        let sess1 : SessionRec := { sess with status := "running", pid := some pid }
        let st1 : V1State :=
          { st with
            world := st.world ++ [proc]
            running := setKey sid pid st.running
            sessions := setKey sid sess1 st.sessions
            nextPid := pid + 1 }
        if survives then (.ok "started" pid, st1)
        else (.httpError 500,
          { st1 with
            running := delKey sid st1.running
            sessions := setKey sid { sess1 with status := "error" } st1.sessions })

/-- Embedding of the timeout/exit handling of run_training in
livetalking_backend.py (from process.wait onwards): on TimeoutExpired the
session records status "error" with message 训练超时 and the entire process
tree of the trainer is killed via kill_process_tree; on exit 0 the session
becomes "ready"; a nonzero exit records the return code; the
training_processes entry is removed. -/
def v1_run_training_await (st : V1State) (sid : String) (pid : Nat)
    (env : TrainEnv) : V1State :=
  if env.timesOut then
    { st with
      world := (kill_process_tree st.world pid).1
      sessions := updateSession st.sessions sid
        (fun s => { s with status := "error", error := some "训练超时" })
      training := delKey sid st.training }
  else if env.exitCode = 0 then
    { st with
      world := killSig st.world pid
      sessions := updateSession st.sessions sid (fun s => { s with status := "ready" })
      training := delKey sid st.training }
  else
    { st with
      world := killSig st.world pid
      sessions := updateSession st.sessions sid
        (fun s => { s with
          status := "error"
          error := some ("训练失败，返回码: " ++ toString env.exitCode) })
      training := delKey sid st.training }

/-- The response of GET /session/{session_id} in livetalking_backend.py, in
the fields the lifecycle logic determines. -/
structure SessionView where
  status : String
  pid : Option Nat
  isRunning : Bool
deriving Repr, DecidableEq

/-- Embedding of GET /session/{session_id} in livetalking_backend.py: the
session record is copied; when the session id is registered in
running_processes the process is re-polled: a live process reports
is_running true with its pid, while an exited one reports is_running false
and, as a side effect, the stale running_processes entry is deleted. -/
def v1_get_session (st : V1State) (sid : String) : Option SessionView × V1State :=
  match getKey st.sessions sid with
  | none => (none, st)
  | some sess =>
      match getKey st.running sid with
      | some pid =>
          if aliveIn st.world pid then
            (some { status := sess.status, pid := some pid, isRunning := true }, st)
          else
            (some { status := sess.status, pid := sess.pid, isRunning := false },
              { st with running := delKey sid st.running })
      | none =>
          (some { status := sess.status, pid := sess.pid, isRunning := false }, st)

/-- C4 (amended): when the spawned serving process has already exited at the
startup grace re-check, both backends report HTTP 500 and delete the
running_processes entry, so the name is no longer Running; backend_simple.py
retains no record of the pid, while livetalking_backend.py leaves the dead
pid recorded in the session whose status becomes "error". -/
theorem C4_startup_exit (st : SimpleState) (v1 : V1State) (name sid : String)
    (sess : SessionRec)
    (hex : name ∈ st.avatarsDir) (hfresh : getKey st.running name = none)
    (hsess : getKey v1.sessions sid = some sess) (hready : sess.status = "ready")
    (hrun : getKey v1.running sid = none) :
    (start_avatar st name false).1 = .httpError 500 ∧
    getKey (start_avatar st name false).2.running name = none ∧
    (v1_start_avatar v1 sid false).1 = .httpError 500 ∧
    getKey (v1_start_avatar v1 sid false).2.running sid = none ∧
    getKey (v1_start_avatar v1 sid false).2.sessions sid
      = some { sess with status := "error", pid := some v1.nextPid } := by
  have h1 : start_avatar st name false
      = (.httpError 500,
         { st with
           world := st.world ++ [⟨st.nextPid, 0, false, false⟩]
           running := delKey name (setKey name st.nextPid st.running)
           nextPid := st.nextPid + 1 }) := by
    simp [start_avatar, hex, hfresh, spawnServing]
  have h2 : v1_start_avatar v1 sid false
      = (.httpError 500,
         { v1 with
           world := v1.world ++ [⟨v1.nextPid, 0, false, false⟩]
           running := delKey sid (setKey sid v1.nextPid v1.running)
           sessions := setKey sid { sess with status := "error", pid := some v1.nextPid }
             (setKey sid { sess with status := "running", pid := some v1.nextPid } v1.sessions)
           nextPid := v1.nextPid + 1 }) := by
    simp [v1_start_avatar, hsess, hready, hrun]
  rw [h1, h2]
  exact ⟨rfl, getKey_delKey_self _ _, rfl, getKey_delKey_self _ _,
    getKey_setKey_self _ _ _⟩

/-- C4 (witness): the startup-exit theorem at concrete fresh states of the
two backends. -/
theorem C4_startup_exit_witness :
    (start_avatar ⟨[], [], [], ["wav2lip256_a"], 4⟩ "wav2lip256_a" false).1
      = .httpError 500 ∧
    getKey (start_avatar ⟨[], [], [], ["wav2lip256_a"], 4⟩
        "wav2lip256_a" false).2.running "wav2lip256_a" = none ∧
    getKey (v1_start_avatar ⟨[], [("s", ⟨"ready", none, none⟩)], [], [], 0⟩
        "s" false).2.sessions "s"
      = some { status := "error", pid := some 0, error := none } :=
  ⟨(C4_startup_exit ⟨[], [], [], ["wav2lip256_a"], 4⟩
      ⟨[], [("s", ⟨"ready", none, none⟩)], [], [], 0⟩ "wav2lip256_a" "s"
      ⟨"ready", none, none⟩ (by decide) rfl (by decide) rfl rfl).1,
   (C4_startup_exit ⟨[], [], [], ["wav2lip256_a"], 4⟩
      ⟨[], [("s", ⟨"ready", none, none⟩)], [], [], 0⟩ "wav2lip256_a" "s"
      ⟨"ready", none, none⟩ (by decide) rfl (by decide) rfl rfl).2.1,
   (C4_startup_exit ⟨[], [], [], ["wav2lip256_a"], 4⟩
      ⟨[], [("s", ⟨"ready", none, none⟩)], [], [], 0⟩ "wav2lip256_a" "s"
      ⟨"ready", none, none⟩ (by decide) rfl (by decide) rfl rfl).2.2.2.2⟩

/-- C4 (counterexample): in livetalking_backend.py a start whose process dies
during the grace interval reports HTTP 500 but leaves the dead pid recorded
in the session, refuting the claim that no process id is retained. -/
theorem C4_counterexample :
    (v1_start_avatar ⟨[], [("s", ⟨"ready", none, none⟩)], [], [], 0⟩ "s" false).1
      = .httpError 500 ∧
    (getKey (v1_start_avatar ⟨[], [("s", ⟨"ready", none, none⟩)], [], [], 0⟩
        "s" false).2.sessions "s").map SessionRec.pid = some (some 0) := by
  decide

/-- C5 (amended): on a training await timeout livetalking_backend.py kills
the entire process tree, so the trainer and every transitive descendant are
dead afterwards, records session status "error" with the 训练超时 timeout
message, and drops the training_processes entry; backend_simple.py kills
only the direct training process (which is then no longer alive) and records
the bare "error" status with no distinct timeout reason, signalling no
descendant. -/
theorem C5_training_timeout (st : V1State) (sid : String) (pid : Nat)
    (env : TrainEnv) (sess : SessionRec) (hwf : WF st.world)
    (hto : env.timesOut = true) (hsess : getKey st.sessions sid = some sess)
    (world : World) (ts : List (String × String)) (fs : Fs) (id : String) :
    (∀ d ∈ descendants st.world pid,
        aliveIn (v1_run_training_await st sid pid env).world d.pid = false) ∧
    aliveIn (v1_run_training_await st sid pid env).world pid = false ∧
    getKey (v1_run_training_await st sid pid env).sessions sid
      = some { sess with status := "error", error := some "训练超时" } ∧
    getKey (v1_run_training_await st sid pid env).training sid = none ∧
    aliveIn (simple_run_training world ts fs id pid env).1 pid = false ∧
    getKey (simple_run_training world ts fs id pid env).2.1 id = some "error" := by
  have hworld : (v1_run_training_await st sid pid env).world
      = (kill_process_tree st.world pid).1 := by
    simp [v1_run_training_await, hto]
  have hsessions : (v1_run_training_await st sid pid env).sessions
      = setKey sid { sess with status := "error", error := some "训练超时" }
          st.sessions := by
    simp [v1_run_training_await, hto, updateSession, hsess]
  have htrain : (v1_run_training_await st sid pid env).training
      = delKey sid st.training := by
    simp [v1_run_training_await, hto]
  have hsw : (simple_run_training world ts fs id pid env).1 = killSig world pid := by
    simp [simple_run_training, hto]
  have hsts : (simple_run_training world ts fs id pid env).2.1
      = setKey id "error" ts := by
    simp [simple_run_training, hto]
  refine ⟨?_, ?_, ?_, ?_, ?_, ?_⟩
  · intro d hd
    rw [hworld]
    exact kill_process_tree_descendant_dead hwf d hd
  · rw [hworld]
    exact kill_process_tree_parent_dead st.world pid
  · rw [hsessions]
    exact getKey_setKey_self _ _ _
  · rw [htrain]
    exact getKey_delKey_self _ _
  · rw [hsw, aliveIn_eq_false_iff]
    exact DeadPid_killSig_self _ _
  · rw [hsts]
    exact getKey_setKey_self _ _ _

/-- C5 (witness): the timeout theorem for a concrete training process with a
stubborn child, and a concrete backend_simple run. -/
theorem C5_training_timeout_witness :
    aliveIn (v1_run_training_await ⟨[⟨1, 0, true, false⟩, ⟨2, 1, true, true⟩],
        [("s", ⟨"training", none, none⟩)], [], [("s", 1)], 3⟩ "s" 1
        ⟨true, 0, false⟩).world 1 = false ∧
    getKey (v1_run_training_await ⟨[⟨1, 0, true, false⟩, ⟨2, 1, true, true⟩],
        [("s", ⟨"training", none, none⟩)], [], [("s", 1)], 3⟩ "s" 1
        ⟨true, 0, false⟩).sessions "s"
      = some { status := "error", pid := none, error := some "训练超时" } :=
  ⟨(C5_training_timeout ⟨[⟨1, 0, true, false⟩, ⟨2, 1, true, true⟩],
      [("s", ⟨"training", none, none⟩)], [], [("s", 1)], 3⟩ "s" 1
      ⟨true, 0, false⟩ ⟨"training", none, none⟩ (by decide) rfl (by decide)
      [] [] [] "a").2.1,
   (C5_training_timeout ⟨[⟨1, 0, true, false⟩, ⟨2, 1, true, true⟩],
      [("s", ⟨"training", none, none⟩)], [], [("s", 1)], 3⟩ "s" 1
      ⟨true, 0, false⟩ ⟨"training", none, none⟩ (by decide) rfl (by decide)
      [] [] [] "a").2.2.1⟩

/-- C5 (counterexample): in backend_simple.py a timed-out training run whose
process has a live child leaves the child alive (subprocess.run only kills
the direct process), and records only the bare "error" status, refuting the
claim that every awaited training job force-terminates the whole tree on
timeout. -/
theorem C5_counterexample :
    aliveIn (simple_run_training [⟨1, 0, true, false⟩, ⟨2, 1, true, false⟩]
        [] [] "a" 1 ⟨true, 0, false⟩).1 1 = false ∧
    aliveIn (simple_run_training [⟨1, 0, true, false⟩, ⟨2, 1, true, false⟩]
        [] [] "a" 1 ⟨true, 0, false⟩).1 2 = true ∧
    descendants [⟨1, 0, true, false⟩, ⟨2, 1, true, false⟩] 1
      = [⟨2, 1, true, false⟩] := by
  decide

/-- C6: when the training process exits 0 but there is no artifact at the
staging path or the relocation fails, backend_simple.py records the "error"
training status (never "completed") and livetalking_backend_v2.py forces the
session to status "error" with the publish-failure message recorded (never
"ready"). -/
theorem C6_exit0_publish_failure (world : World) (ts : List (String × String))
    (fs : Fs) (id : String) (pid : Nat) (env : TrainEnv)
    (sessions : List (String × SessionRec)) (training : List (String × Nat))
    (sess : SessionRec)
    (hto : env.timesOut = false) (hcode : env.exitCode = 0)
    (hsess : getKey sessions id = some sess)
    (hfail : getKey fs (Loc.staging id) = none ∨ env.moveFails = true) :
    getKey (simple_run_training world ts fs id pid env).2.1 id = some "error" ∧
    getKey (v2_run_training_await world sessions training fs id pid env).2.1 id
      = some { sess with status := "error", error := some "无法移动训练结果" } := by
  have hmv : (move_trained_avatar fs id env.moveFails).2 = false := by
    rcases hfail with h | h
    · simp [move_trained_avatar, h]
    · cases hst : (getKey fs (Loc.staging id)).isSome
      · simp [move_trained_avatar, hst]
      · simp [move_trained_avatar, hst, h]
  constructor
  · have hsts : (simple_run_training world ts fs id pid env).2.1
        = setKey id "error" ts := by
      rcases hfail with h | h
      · simp [simple_run_training, hto, hcode, h]
      · cases hst : (getKey fs (Loc.staging id)).isSome
        · simp [simple_run_training, hto, hcode, hst]
        · simp [simple_run_training, hto, hcode, hst, h]
    rw [hsts]
    exact getKey_setKey_self _ _ _
  · have hv2 : (v2_run_training_await world sessions training fs id pid env).2.1
        = setKey id { sess with status := "error", error := some "无法移动训练结果" }
            sessions := by
      simp [v2_run_training_await, hto, hcode, hmv, updateSession, hsess]
    rw [hv2]
    exact getKey_setKey_self _ _ _

/-- C6 (witness): the forced-failure theorem at a concrete exit-0 run whose
relocation raises. -/
theorem C6_exit0_publish_failure_witness :
    getKey (simple_run_training [] [] [(Loc.staging "a", 2), (Loc.published "a", 1)]
        "a" 1 ⟨false, 0, true⟩).2.1 "a" = some "error" ∧
    getKey (v2_run_training_await [] [("a", ⟨"training", none, none⟩)] []
        [(Loc.staging "a", 2), (Loc.published "a", 1)] "a" 1 ⟨false, 0, true⟩).2.1 "a"
      = some { status := "error", pid := none, error := some "无法移动训练结果" } :=
  ⟨(C6_exit0_publish_failure [] [] [(Loc.staging "a", 2), (Loc.published "a", 1)]
      "a" 1 ⟨false, 0, true⟩ [("a", ⟨"training", none, none⟩)] []
      ⟨"training", none, none⟩ rfl rfl (by decide) (Or.inr rfl)).1,
   (C6_exit0_publish_failure [] [] [(Loc.staging "a", 2), (Loc.published "a", 1)]
      "a" 1 ⟨false, 0, true⟩ [("a", ⟨"training", none, none⟩)] []
      ⟨"training", none, none⟩ rfl rfl (by decide) (Or.inr rfl)).2⟩

/-- C8 (amended): the GET session status query of livetalking_backend.py
re-polls liveness: for a registered but exited process it reports is_running
false (keeping the session's recorded pid and status string) and reconciles
the registry by deleting the stale running_processes entry, and it reports
is_running true only when the registered process is actually alive; the GET
avatars scan of backend_simple.py instead derives is_running from registry
membership alone and can report true for an exited process. -/
theorem C8_get_session_reconciles (st : V1State) (sid : String) :
    (∀ sess pid, getKey st.sessions sid = some sess →
      getKey st.running sid = some pid → aliveIn st.world pid = false →
      (v1_get_session st sid).1
        = some { status := sess.status, pid := sess.pid, isRunning := false } ∧
      getKey (v1_get_session st sid).2.running sid = none) ∧
    (∀ view, (v1_get_session st sid).1 = some view → view.isRunning = true →
      ∃ pid, getKey st.running sid = some pid ∧ aliveIn st.world pid = true) := by
  constructor
  · intro sess pid hsess hpid hdead
    constructor
    · simp [v1_get_session, hsess, hpid, hdead]
    · simp [v1_get_session, hsess, hpid, hdead, getKey_delKey_self]
  · intro view hv hr
    cases hsess : getKey st.sessions sid with
    | none => simp [v1_get_session, hsess] at hv
    | some sess =>
        cases hrun : getKey st.running sid with
        | none =>
            simp only [v1_get_session, hsess, hrun, Option.some.injEq] at hv
            rw [← hv] at hr
            simp at hr
        | some pid =>
            cases hdead : aliveIn st.world pid with
            | true => exact ⟨pid, hrun ▸ rfl, hdead⟩
            | false =>
                simp only [v1_get_session, hsess, hrun, hdead, Bool.false_eq_true,
                  if_false, Option.some.injEq] at hv
                rw [← hv] at hr
                simp at hr

/-- C8 (witness): the reconciliation theorem at a concrete registry holding a
stale entry for an exited process. -/
theorem C8_get_session_reconciles_witness :
    (v1_get_session ⟨[⟨5, 0, false, false⟩], [("s", ⟨"running", some 5, none⟩)],
        [("s", 5)], [], 6⟩ "s").1
      = some { status := "running", pid := some 5, isRunning := false } ∧
    getKey (v1_get_session ⟨[⟨5, 0, false, false⟩], [("s", ⟨"running", some 5, none⟩)],
        [("s", 5)], [], 6⟩ "s").2.running "s" = none :=
  (C8_get_session_reconciles ⟨[⟨5, 0, false, false⟩],
      [("s", ⟨"running", some 5, none⟩)], [("s", 5)], [], 6⟩ "s").1
    ⟨"running", some 5, none⟩ 5 (by decide) (by decide) (by decide)

/-- C8 (counterexample): scan_avatars in backend_simple.py reports is_running
true for an avatar whose registered process has already exited, because it
tests only registry membership and never re-polls, refuting the claim that a
status query never reports running for an exited process. -/
theorem C8_counterexample :
    aliveIn [⟨5, 0, false, false⟩] 5 = false ∧
    (scan_avatars ["wav2lip256_a"] [] [("wav2lip256_a", 5)]).map AvatarInfo.isRunning
      = [true] := by
  decide

theorem pyStartsWith_append (pre s : String) :
    pyStartsWith (pre ++ s) pre = true := by
  unfold pyStartsWith
  rw [String.data_append, List.isPrefixOf_iff_prefix]
  exact List.prefix_append _ _

/-- C9: the effective job name equals the requested id when it already starts
with the wav2lip256 marker and is the marked id otherwise; the normalization
is idempotent; and the train endpoint uses the normalized name for the
registry key, for the spawned command, and in its response. -/
theorem C9_train_normalization (ts : List (String × String)) (id videoPath : String) :
    (pyStartsWith id "wav2lip256_" = true → normalizeAvatarId id = id) ∧
    (pyStartsWith id "wav2lip256_" = false →
      normalizeAvatarId id = "wav2lip256_" ++ id) ∧
    normalizeAvatarId (normalizeAvatarId id) = normalizeAvatarId id ∧
    (train_avatar ts id videoPath).2.1 = normalizeAvatarId id ∧
    getKey (train_avatar ts id videoPath).1 (normalizeAvatarId id) = some "training" ∧
    normalizeAvatarId id ∈ (train_avatar ts id videoPath).2.2 := by
  refine ⟨?_, ?_, ?_, rfl, ?_, ?_⟩
  · intro h
    simp [normalizeAvatarId, h]
  · intro h
    simp [normalizeAvatarId, h]
  · cases h : pyStartsWith id "wav2lip256_" with
    | true => simp [normalizeAvatarId, h]
    | false => simp [normalizeAvatarId, h, pyStartsWith_append]
  · exact getKey_setKey_self _ _ _
  · simp [train_avatar, trainingCmd]

/-- C9 (witness): the normalization theorem at a concrete unmarked id. -/
theorem C9_train_normalization_witness :
    normalizeAvatarId "a" = "wav2lip256_" ++ "a" ∧
    normalizeAvatarId (normalizeAvatarId "a") = normalizeAvatarId "a" :=
  ⟨(C9_train_normalization [] "a" "v").2.1 (by decide),
   (C9_train_normalization [] "a" "v").2.2.1⟩

end SeeYouAgain
